import Mathlib

/-!
Verification of the timesheet reconciliation engine
(src/timesheet_reconciliation.py) against its specification.

The engine consumes three tabular inputs: the primary (HSBC) timesheet
table, an identifier-mapping workbook with two sheets (Offshore Active and
Offshore Inactive), and the secondary (CG) billable-hours table.  It
produces a reconciliation table and a flagged-entries table.

Modelling choices (shallow embedding):
- a table is a list of rows; row order is list order (pandas keeps input
  order through filtering, concatenation and left merge);
- datetimes are integer seconds; a value that an external date parse may
  reject is a RawDate, and pd.to_datetime is pdToDatetime returning Option
  (pandas raises on a whole column as soon as one value is unparseable,
  which the table-level conversion models with Except);
- hours are exact rationals; the Python code performs one subtraction and
  one sum on them, with no rounding anywhere;
- a missing cell (NaN) in the mapping sheets or produced by the left merge
  is Option.none; the pandas comparison of a column against None is
  uniformly false, which emailRule models;
- exceptions raised inside process_timesheet propagate to the caller
  (the try block re-raises), so the function is Except-valued.
-/

/-- A raw date cell: either a value the external parser accepts
(abstracted to integer seconds) or one it rejects. -/
inductive RawDate where
  | valid (t : Int)
  | malformed
deriving DecidableEq, Repr

/-- pd.to_datetime on one cell: Option instead of an exception. -/
def pdToDatetime : RawDate → Option Int
  | .valid t => some t
  | .malformed => none

/-- A raw Timesheet Period cell: either it splits on the separator into two
raw dates, or it does not split into exactly two parts. -/
inductive RawPeriod where
  | pair (s e : RawDate)
  | noSplit
deriving DecidableEq, Repr

/-- Lines 90-97: split the free-text period on the separator and parse both
halves; any failure yields no derived period (the except branch). -/
def parse_timesheet_period : RawPeriod → Option (Int × Int)
  | .pair s e =>
    match pdToDatetime s, pdToDatetime e with
    | some a, some b => some (a, b)
    | _, _ => none
  | .noSplit => none

/-- One row of the primary (HSBC) table.  UNITS_CONSUMED is taken to be
numeric (a non-numeric cell would make the whole filter comparison raise). -/
structure HsbcRow where
  resourceid : Nat
  resource_name : String
  project_productive_flag : String
  tsstatus : String
  timeperiod : RawDate
  units_consumed : ℚ
deriving DecidableEq, Repr

/-- One row of a mapping sheet.  Email and owner cells may be blank (NaN). -/
structure MapRow where
  ps_id : Nat
  cg_email : Option String
  pl_owner : Option String
deriving DecidableEq, Repr

/-- One row of the secondary (CG) table.  ts_start and ts_end are the
derived Timesheet Start and Timesheet End columns; before the engine runs
they carry no information (none). -/
structure CgRow where
  user_email : String
  entry_date : RawDate
  timesheet_period : RawPeriod
  billable_hours : ℚ
  ts_start : Option Int
  ts_end : Option Int
deriving DecidableEq, Repr

/-- Python lower then strip, on the character list of a string:
map to lower case, then drop whitespace from both ends
(lines 87 and 112 both apply lower before strip). -/
def pyStrip (l : List Char) : List Char :=
  ((l.dropWhile Char.isWhitespace).reverse.dropWhile Char.isWhitespace).reverse

/-- Email normalisation used on both sides of the match:
s.lower().strip(). -/
def normEmail (s : String) : String :=
  ⟨pyStrip (s.data.map Char.toLower)⟩

/-- Line 49-53: the reconciliation filter on the primary table. -/
def reconPred (r : HsbcRow) : Bool :=
  r.project_productive_flag == "Yes" &&
  (r.tsstatus == "Approved" || r.tsstatus == "Posted") &&
  (0 < r.units_consumed)

/-- Line 153-157: the flagged-entries filter on the primary table. -/
def flaggedPred (r : HsbcRow) : Bool :=
  r.project_productive_flag == "Yes" &&
  (r.tsstatus == "Open" || r.tsstatus == "Returned" || r.tsstatus == "Submitted") &&
  (0 < r.units_consumed)

/-- Lines 59-66: concatenate the two sheets (active first) and drop
duplicate PS IDs keeping the first occurrence.  The seen accumulator holds
the keys already emitted. -/
def dropDuplicatesByPsId : List MapRow → List Nat → List MapRow
  | [], _ => []
  | r :: rs, seen =>
    if r.ps_id ∈ seen then dropDuplicatesByPsId rs seen
    else r :: dropDuplicatesByPsId rs (r.ps_id :: seen)

/-- One row of the merged (primary left-joined with mapping) table. -/
structure MergedRow where
  hsbc : HsbcRow
  cg_email : Option String
  pl_owner : Option String
deriving DecidableEq, Repr

/-- The left-merge contribution of one primary row: one output row per
matching mapping row, or a single row with blank email and owner when no
mapping row matches. -/
def mergeLeftOne (mapping : List MapRow) (r : HsbcRow) : List MergedRow :=
  match mapping.filter (fun m => m.ps_id == r.resourceid) with
  | [] => [⟨r, none, none⟩]
  | ms => ms.map (fun m => ⟨r, m.cg_email, m.pl_owner⟩)

/-- Lines 69-75: left merge of the filtered primary table with the
deduplicated mapping table, preserving left order. -/
def mergeLeft (mapping : List MapRow) : List HsbcRow → List MergedRow
  | [] => []
  | r :: rs => mergeLeftOne mapping r ++ mergeLeft mapping rs

/-- Line 81: full-row drop_duplicates on the merged table, first
occurrence kept (only ever reached from the cardinality warning branch). -/
def dropDuplicateRows : List MergedRow → List MergedRow → List MergedRow
  | [], _ => []
  | r :: rs, seen =>
    if r ∈ seen then dropDuplicateRows rs seen
    else r :: dropDuplicateRows rs (r :: seen)

/-- Lines 86-99 applied to one secondary row: normalise the email and set
the derived period columns from the parsed Timesheet Period (entry_date is
kept at second granularity, so its conversion is the identity here). -/
def prepareCgRow (e : CgRow) : CgRow :=
  { e with
    user_email := normEmail e.user_email
    ts_start := (parse_timesheet_period e.timesheet_period).map Prod.fst
    ts_end := (parse_timesheet_period e.timesheet_period).map Prod.snd }

/-- Lines 86-99 on the whole secondary table.  pd.to_datetime on the Entry
Date column raises as soon as any cell is unparseable, before any row of
the merged table is processed. -/
def prepareCg (cg : List CgRow) : Except Unit (List CgRow) :=
  if cg.all (fun e => (pdToDatetime e.entry_date).isSome)
  then .ok (cg.map prepareCgRow)
  else .error ()

/-- Line 109: the window end is TIMEPERIOD plus six days with the time of
day replaced by 23:59:59 (floor to the start of that day, plus 86399 s). -/
def endOfWindow (t : Int) : Int :=
  t + 6 * 86400 - (t + 6 * 86400) % 86400 + 86399

/-- Line 116: comparison of the normalised User Email column against the
cg_email value; comparing against a missing value (None) is false for
every row. -/
def emailRule (cgEmail : Option String) (e : CgRow) : Bool :=
  match cgEmail with
  | none => false
  | some ce => e.user_email == ce

/-- Line 119: the period-overlap rule.  A NaT in either derived column
makes its comparison false, so a row without a parsed period never
satisfies this rule. -/
def overlapRule (e : CgRow) (t endD : Int) : Bool :=
  match e.ts_start, e.ts_end with
  | some s, some en => decide (s ≤ endD) && decide (t ≤ en)
  | _, _ => false

/-- Line 121: the entry-date containment rule, inclusive on both ends. -/
def entryDateRule (e : CgRow) (t endD : Int) : Bool :=
  match pdToDatetime e.entry_date with
  | some d => decide (t ≤ d) && decide (d ≤ endD)
  | none => false

/-- Lines 115-123: the secondary rows matched for one merged row: email
equality and (period overlap or entry-date containment). -/
def cgFilterRows (cg : List CgRow) (cgEmail : Option String) (t : Int) : List CgRow :=
  cg.filter (fun e =>
    emailRule cgEmail e &&
    (overlapRule e t (endOfWindow t) || entryDateRule e t (endOfWindow t)))

/-- Line 126: sum of the matched billable hours (0 on the empty match). -/
def cgHoursSum (rows : List CgRow) : ℚ :=
  (rows.map (fun e => e.billable_hours)).sum

/-- One row of the reconciliation output (lines 129-138).  The Timesheet
Period column carries the original raw TIMEPERIOD cell. -/
structure ReconRow where
  name : String
  staff_id : Nat
  cg_email : Option String
  pl_owner : Option String
  timeperiod : RawDate
  hsbc_hrs : ℚ
  cg_hrs : ℚ
  discrepancy : ℚ
deriving DecidableEq, Repr

/-- Lines 107-138 for one merged row once its TIMEPERIOD parsed to t. -/
def mkReconRow (cg : List CgRow) (row : MergedRow) (t : Int) : ReconRow :=
  let cgEmail := row.cg_email.map normEmail
  let matched := cgFilterRows cg cgEmail t
  let hrs := cgHoursSum matched
  { name := row.hsbc.resource_name
    staff_id := row.hsbc.resourceid
    cg_email := row.cg_email
    pl_owner := row.pl_owner
    timeperiod := row.hsbc.timeperiod
    hsbc_hrs := row.hsbc.units_consumed
    cg_hrs := hrs
    discrepancy := row.hsbc.units_consumed - hrs }

/-- Lines 107-139 for one merged row: pd.to_datetime on the TIMEPERIOD
cell raises when it is unparseable. -/
def processOneRow (cg : List CgRow) (row : MergedRow) : Except Unit ReconRow :=
  match pdToDatetime row.hsbc.timeperiod with
  | none => .error ()
  | some t => .ok (mkReconRow cg row t)

/-- Lines 105-139: the per-row loop over the merged table, in order; the
first raising row aborts the whole call. -/
def processRowsLoop (cg : List CgRow) : List MergedRow → Except Unit (List ReconRow)
  | [] => .ok []
  | r :: rs =>
    match processOneRow cg r with
    | .error e => .error e
    | .ok x =>
      match processRowsLoop cg rs with
      | .error e => .error e
      | .ok xs => .ok (x :: xs)

/-- Lines 42-143: the whole reconciliation path.  Returns the output table
together with the post-state of the secondary table, which the code
updates in place (the primary and mapping inputs are only read).  The
warning branch of lines 78-82 is the if on the merged length. -/
def process_timesheet (hsbc : List HsbcRow) (active inactive : List MapRow)
    (cg : List CgRow) : Except Unit (List ReconRow × List CgRow) :=
  let hsbc_filtered := hsbc.filter reconPred
  let mapping_combined := dropDuplicatesByPsId (active ++ inactive) []
  let merged0 := mergeLeft mapping_combined hsbc_filtered
  let merged_data :=
    if merged0.length ≠ hsbc_filtered.length then dropDuplicateRows merged0 []
    else merged0
  match prepareCg cg with
  | .error e => .error e
  | .ok cgPrep =>
    match processRowsLoop cgPrep merged_data with
    | .error e => .error e
    | .ok results => .ok (results, cgPrep)

/-- One row of the flagged output (lines 178-186). -/
structure FlaggedRow where
  name : String
  staff_id : Nat
  cg_email : Option String
  pl_owner : Option String
  timeperiod : RawDate
  hsbc_hrs : ℚ
  status : String
deriving DecidableEq, Repr

/-- Lines 149-188: the flagged path.  Same mapping combination and left
merge as the reconciliation path, different status allow-list, no
secondary matching, no cardinality check, no date parsing. -/
def process_flagged_timesheets (hsbc : List HsbcRow) (active inactive : List MapRow) :
    List FlaggedRow :=
  let flagged := hsbc.filter flaggedPred
  let mapping_combined := dropDuplicatesByPsId (active ++ inactive) []
  let merged := mergeLeft mapping_combined flagged
  merged.map (fun m =>
    { name := m.hsbc.resource_name
      staff_id := m.hsbc.resourceid
      cg_email := m.cg_email
      pl_owner := m.pl_owner
      timeperiod := m.hsbc.timeperiod
      hsbc_hrs := m.hsbc.units_consumed
      status := m.hsbc.tsstatus })

/-- The primary table after either call: the code only reads it
(the filter result is an explicit copy, lines 49-53 and 153-157). -/
def hsbcAfterRun (hsbc : List HsbcRow) : List HsbcRow := hsbc

/-- The mapping sheets after either call: pd.concat builds a new frame,
the sheets themselves are only read (lines 59-66 and 160-166). -/
def mappingAfterRun (active inactive : List MapRow) : List MapRow × List MapRow :=
  (active, inactive)

/-- The merged row a primary row resolves to, described directly on the
concatenated (not yet deduplicated) mapping list: the first occurrence of
the key decides the email and owner. -/
def mergedOf (allRows : List MapRow) (r : HsbcRow) : MergedRow :=
  match allRows.find? (fun m => m.ps_id == r.resourceid) with
  | none => ⟨r, none, none⟩
  | some a => ⟨r, a.cg_email, a.pl_owner⟩

/-- Conclusion of claim C3, at a window anchor t: the window end is t plus
6 days 23:59:59; membership in the matched set is email equality together
with the disjunction of the period-overlap rule and the inclusive
entry-date rule; an entry dated exactly at the window end (and without a
derived period) is matched, one dated 7 days and 1 second after t is not. -/
def c3Spec (t : Int) : Prop :=
  endOfWindow t = t + 604799 ∧
  (∀ (cg : List CgRow) (ce : Option String) (e : CgRow),
      e ∈ cgFilterRows cg ce t ↔
        e ∈ cg ∧ emailRule ce e = true ∧
          (overlapRule e t (endOfWindow t) = true ∨ entryDateRule e t (endOfWindow t) = true)) ∧
  (∀ (cg : List CgRow) (ce : Option String) (e : CgRow),
      e.ts_start = none → e.entry_date = RawDate.valid (t + 604799) →
      emailRule ce e = true → e ∈ cg → e ∈ cgFilterRows cg ce t) ∧
  (∀ (cg : List CgRow) (ce : Option String) (e : CgRow),
      e.ts_start = none → e.entry_date = RawDate.valid (t + 604800 + 1) →
      e ∉ cgFilterRows cg ce t)

/-- Conclusion of claim C6 for an in-scope primary row r whose staff id
resolves to no mapping row: the left merge still yields exactly one merged
row, with blank email and owner, and processing that row succeeds with
zero secondary hours and a discrepancy equal to the primary hours. -/
def c6Spec (r : HsbcRow) (active inactive : List MapRow) : Prop :=
  mergeLeftOne (dropDuplicatesByPsId (active ++ inactive) []) r = [⟨r, none, none⟩] ∧
  ∀ cg : List CgRow,
    processOneRow cg ⟨r, none, none⟩ =
      .ok { name := r.resource_name, staff_id := r.resourceid, cg_email := none,
            pl_owner := none, timeperiod := r.timeperiod, hsbc_hrs := r.units_consumed,
            cg_hrs := 0, discrepancy := r.units_consumed }

/-- Conclusion of claim C7 for a secondary entry e whose period label does
not parse: both derived fields are none, the overlap rule can never hold
for it, the full match condition collapses to the email test and the
entry-date rule, and table preparation keeps the entry. -/
def c7Spec (e : CgRow) : Prop :=
  (prepareCgRow e).ts_start = none ∧ (prepareCgRow e).ts_end = none ∧
  (∀ t endD : Int, overlapRule (prepareCgRow e) t endD = false) ∧
  (∀ (t : Int) (ce : Option String),
      (emailRule ce (prepareCgRow e) &&
        (overlapRule (prepareCgRow e) t (endOfWindow t) ||
         entryDateRule (prepareCgRow e) t (endOfWindow t)))
        = (emailRule ce (prepareCgRow e) && entryDateRule (prepareCgRow e) t (endOfWindow t))) ∧
  (∀ cg l : List CgRow, prepareCg cg = .ok l → e ∈ cg → prepareCgRow e ∈ l)

/-- A concrete in-scope (approved, productive, 40 h) primary row. -/
def wRow : HsbcRow :=
  { resourceid := 100, resource_name := "Jane", project_productive_flag := "Yes",
    tsstatus := "Approved", timeperiod := .valid 1746403200, units_consumed := 40 }

/-- A concrete flagged (submitted) primary row. -/
def wRowFlag : HsbcRow :=
  { resourceid := 101, resource_name := "Raj", project_productive_flag := "Yes",
    tsstatus := "Submitted", timeperiod := .valid 1746403200, units_consumed := 5 }

/-- A concrete active-sheet mapping row for staff id 100. -/
def wMapActive : MapRow :=
  { ps_id := 100, cg_email := some "jane@x.com", pl_owner := some "OwnerA" }

/-- A concrete inactive-sheet mapping row for the same staff id 100. -/
def wMapInactive : MapRow :=
  { ps_id := 100, cg_email := some "stale@x.com", pl_owner := some "OwnerB" }

/-- A concrete secondary entry, 8 h, one day into the window, with an
email that differs from the mapping email only by case and whitespace. -/
def wCg1 : CgRow :=
  { user_email := "Jane@X.com ", entry_date := .valid 1746489600,
    timesheet_period := .noSplit, billable_hours := 8, ts_start := none, ts_end := none }

/-- A concrete secondary entry, 32 h, four days into the window. -/
def wCg2 : CgRow :=
  { user_email := "jane@x.com", entry_date := .valid 1746748800,
    timesheet_period := .noSplit, billable_hours := 32, ts_start := none, ts_end := none }

/-- The reconciliation output of the concrete sample run. -/
def wOut : List ReconRow :=
  [{ name := "Jane", staff_id := 100, cg_email := some "jane@x.com",
     pl_owner := some "OwnerA", timeperiod := .valid 1746403200,
     hsbc_hrs := 40, cg_hrs := 40, discrepancy := 0 }]

/-- The secondary-table post-state of the concrete sample run. -/
def wCgPost : List CgRow := [prepareCgRow wCg1, prepareCgRow wCg2]

/-- Conclusion of claim C1: rows violating the productive flag, both
status policies, or the positive-hours condition survive neither filter;
the reconciliation filter keeps exactly the rows with flag Yes, approved
or posted status and positive hours; the reconciliation output is exactly
the image of the filtered rows, in order; and the flagged output is
exactly the image of the flagged-filtered rows, in order. -/
def c1Spec (hsbc : List HsbcRow) (active inactive : List MapRow)
    (out : List ReconRow) (cgPost : List CgRow) : Prop :=
  (∀ r ∈ hsbc,
      (r.project_productive_flag ≠ "Yes" ∨
        (r.tsstatus ∉ (["Approved", "Posted"] : List String) ∧
         r.tsstatus ∉ (["Open", "Returned", "Submitted"] : List String)) ∨
        ¬ (0 < r.units_consumed)) →
      r ∉ hsbc.filter reconPred ∧ r ∉ hsbc.filter flaggedPred) ∧
  (∀ r : HsbcRow,
      r ∈ hsbc.filter reconPred ↔
        r ∈ hsbc ∧ r.project_productive_flag = "Yes" ∧
          (r.tsstatus = "Approved" ∨ r.tsstatus = "Posted") ∧ 0 < r.units_consumed) ∧
  out = (hsbc.filter reconPred).map (fun r =>
      mkReconRow cgPost (mergedOf (active ++ inactive) r)
        ((pdToDatetime r.timeperiod).getD 0)) ∧
  process_flagged_timesheets hsbc active inactive
    = (hsbc.filter flaggedPred).map (fun r =>
        let m := mergedOf (active ++ inactive) r
        { name := m.hsbc.resource_name, staff_id := m.hsbc.resourceid,
          cg_email := m.cg_email, pl_owner := m.pl_owner,
          timeperiod := m.hsbc.timeperiod, hsbc_hrs := m.hsbc.units_consumed,
          status := m.hsbc.tsstatus })

/-- Conclusion of claim C2: every emitted reconciliation row carries the
exact difference of its primary and secondary hours; each row comes from a
filtered primary row with secondary hours equal to the sum of its matched
entries; and the output has one row per filtered primary row, so no
threshold ever suppresses a row. -/
def c2Spec (hsbc : List HsbcRow) (active inactive : List MapRow)
    (out : List ReconRow) (cgPost : List CgRow) : Prop :=
  (∀ x ∈ out, x.discrepancy = x.hsbc_hrs - x.cg_hrs) ∧
  (∀ x ∈ out, ∃ r ∈ hsbc.filter reconPred, ∃ t, pdToDatetime r.timeperiod = some t ∧
      x.hsbc_hrs = r.units_consumed ∧
      x.cg_hrs = cgHoursSum (cgFilterRows cgPost
          (Option.map normEmail (mergedOf (active ++ inactive) r).cg_email) t) ∧
      x.discrepancy = r.units_consumed - x.cg_hrs) ∧
  out.length = (hsbc.filter reconPred).length

/-- Conclusion of claim C10: the left merge against the deduplicated
mapping has exactly the length of its left side and one row per left row
in input order, the duplicate-removal warning branch is never taken, the
reconciliation output has one row per filtered primary row, and the
flagged output has one row per flagged primary row. -/
def c10Spec (hsbc : List HsbcRow) (active inactive : List MapRow)
    (out : List ReconRow) : Prop :=
  (mergeLeft (dropDuplicatesByPsId (active ++ inactive) []) (hsbc.filter reconPred)).length
    = (hsbc.filter reconPred).length ∧
  (mergeLeft (dropDuplicatesByPsId (active ++ inactive) []) (hsbc.filter reconPred)).map
      (fun m => m.hsbc) = hsbc.filter reconPred ∧
  ((if (mergeLeft (dropDuplicatesByPsId (active ++ inactive) [])
          (hsbc.filter reconPred)).length ≠ (hsbc.filter reconPred).length
      then dropDuplicateRows
        (mergeLeft (dropDuplicatesByPsId (active ++ inactive) []) (hsbc.filter reconPred)) []
      else mergeLeft (dropDuplicatesByPsId (active ++ inactive) []) (hsbc.filter reconPred))
    = mergeLeft (dropDuplicatesByPsId (active ++ inactive) []) (hsbc.filter reconPred)) ∧
  out.length = (hsbc.filter reconPred).length ∧
  (process_flagged_timesheets hsbc active inactive).length
    = (hsbc.filter flaggedPred).length

/-- Conclusion of claim C4, for a staff id s whose first active-sheet
occurrence is the row a: exactly that row survives deduplication for s,
every primary row with that staff id resolves to its email and owner, and
both output tables use them for rows with that staff id. -/
def c4Spec (active inactive : List MapRow) (s : Nat) (a : MapRow) : Prop :=
  ((dropDuplicatesByPsId (active ++ inactive) []).filter (fun m => m.ps_id == s)) = [a] ∧
  (∀ r : HsbcRow, r.resourceid = s →
      mergedOf (active ++ inactive) r = ⟨r, a.cg_email, a.pl_owner⟩) ∧
  (∀ (hsbc : List HsbcRow) (y : FlaggedRow),
      y ∈ process_flagged_timesheets hsbc active inactive → y.staff_id = s →
      y.cg_email = a.cg_email ∧ y.pl_owner = a.pl_owner) ∧
  (∀ (hsbc : List HsbcRow) (cg : List CgRow) (out : List ReconRow) (cgPost : List CgRow),
      process_timesheet hsbc active inactive cg = .ok (out, cgPost) →
      ∀ x ∈ out, x.staff_id = s → x.cg_email = a.cg_email ∧ x.pl_owner = a.pl_owner)

/-- Replacing the user email of a secondary row, as done when the whole
secondary table is fed back with pre-normalised emails. -/
def setUserEmail (v : String) (e : CgRow) : CgRow := { e with user_email := v }

/-- Conclusion of claim C5, for a mapping email m and a user email u that
agree after lowercasing and trimming, over any entries of that user: the
email test succeeds both on the raw strings and on the pre-normalised
strings, and the summed matched hours agree between the raw run and the
run on pre-normalised inputs. -/
def c5Spec (m u : String) (es : List CgRow) (t : Int) : Prop :=
  (∀ e ∈ es, emailRule (some (normEmail m)) (prepareCgRow e) = true ∧
      emailRule (some (normEmail (normEmail m)))
        (prepareCgRow (setUserEmail (normEmail u) e)) = true) ∧
  cgHoursSum (cgFilterRows (es.map prepareCgRow) (some (normEmail m)) t)
    = cgHoursSum (cgFilterRows ((es.map (setUserEmail (normEmail u))).map prepareCgRow)
        (some (normEmail (normEmail m))) t)

/-- A secondary row whose Entry Date cell the date parser rejects. -/
def badDateCg : CgRow :=
  { user_email := "someone@x.com", entry_date := .malformed,
    timesheet_period := .noSplit, billable_hours := 1, ts_start := none, ts_end := none }

/-- Conclusion of the amended claim C8: a run whose secondary table holds
an unparseable Entry Date aborts with an error; a run whose in-scope
primary rows include an unparseable TIMEPERIOD aborts with an error even
when every secondary date parses; only a failure of the free-text period
label is tolerated, leaving the derived fields null and keeping the row. -/
def c8Spec (hsbc : List HsbcRow) (active inactive : List MapRow) (cg : List CgRow) : Prop :=
  process_timesheet hsbc active inactive cg = .error () ∧
  (∀ (cg2 : List CgRow) (r : HsbcRow),
      (∀ x ∈ cg2, (pdToDatetime x.entry_date).isSome = true) →
      r ∈ hsbc.filter reconPred → pdToDatetime r.timeperiod = none →
      process_timesheet hsbc active inactive cg2 = .error ()) ∧
  (∀ x : CgRow, parse_timesheet_period x.timesheet_period = none →
      (prepareCgRow x).ts_start = none ∧ (prepareCgRow x).ts_end = none) ∧
  (∀ cg3 l : List CgRow, prepareCg cg3 = .ok l →
      l = cg3.map prepareCgRow ∧ ∀ x ∈ cg3, prepareCgRow x ∈ l)

/-- Conclusion of the amended claim C9: the primary table and the two
mapping sheets are left unchanged by the engine, but the secondary table
is mutated in place: every rows User Email is rewritten to its lowercased
and trimmed form and the derived period columns are overwritten from the
parsed period label, while entry date, period label and hours keep their
values. -/
def c9Spec (hsbc : List HsbcRow) (active inactive : List MapRow)
    (cg : List CgRow) (cgPost : List CgRow) : Prop :=
  hsbcAfterRun hsbc = hsbc ∧
  mappingAfterRun active inactive = (active, inactive) ∧
  cgPost = cg.map prepareCgRow ∧
  (∀ e ∈ cg, (prepareCgRow e).user_email = normEmail e.user_email ∧
      (prepareCgRow e).ts_start = (parse_timesheet_period e.timesheet_period).map Prod.fst ∧
      (prepareCgRow e).ts_end = (parse_timesheet_period e.timesheet_period).map Prod.snd ∧
      (prepareCgRow e).entry_date = e.entry_date ∧
      (prepareCgRow e).timesheet_period = e.timesheet_period ∧
      (prepareCgRow e).billable_hours = e.billable_hours)

theorem dd_filter_of_mem_seen (l : List MapRow) :
    ∀ (seen : List Nat) (k : Nat), k ∈ seen →
      (dropDuplicatesByPsId l seen).filter (fun m => m.ps_id == k) = [] := by
  induction l with
  | nil => intro seen k _; rfl
  | cons r rs ih =>
    intro seen k hk
    by_cases hmem : r.ps_id ∈ seen
    · simp only [dropDuplicatesByPsId, if_pos hmem]
      exact ih seen k hk
    · have hne : (r.ps_id == k) = false := by
        simp only [beq_eq_false_iff_ne, ne_eq]
        intro h; exact hmem (h ▸ hk)
      simp only [dropDuplicatesByPsId, if_neg hmem, List.filter_cons, hne, Bool.false_eq_true,
        if_false]
      exact ih (r.ps_id :: seen) k (List.mem_cons_of_mem _ hk)

theorem dd_filter_eq_find (l : List MapRow) :
    ∀ (seen : List Nat) (k : Nat), k ∉ seen →
      (dropDuplicatesByPsId l seen).filter (fun m => m.ps_id == k)
        = (l.find? (fun m => m.ps_id == k)).toList := by
  induction l with
  | nil => intro seen k _; rfl
  | cons r rs ih =>
    intro seen k hk
    by_cases hmem : r.ps_id ∈ seen
    · have hne : (r.ps_id == k) = false := by
        simp only [beq_eq_false_iff_ne, ne_eq]
        intro h; exact hk (h ▸ hmem)
      simp only [dropDuplicatesByPsId, if_pos hmem, List.find?_cons, hne]
      exact ih seen k hk
    · by_cases heq : r.ps_id = k
      · have hbeq : (r.ps_id == k) = true := beq_iff_eq.mpr heq
        simp only [dropDuplicatesByPsId, if_neg hmem, List.filter_cons, hbeq, if_true,
          List.find?_cons, Option.toList]
        have hkseen : k ∈ r.ps_id :: seen := by
          exact heq ▸ List.mem_cons_self _ _
        rw [dd_filter_of_mem_seen rs (r.ps_id :: seen) k hkseen]
      · have hne : (r.ps_id == k) = false := by
          simp only [beq_eq_false_iff_ne, ne_eq]; exact heq
        simp only [dropDuplicatesByPsId, if_neg hmem, List.filter_cons, hne, Bool.false_eq_true,
          if_false, List.find?_cons]
        have hk2 : k ∉ r.ps_id :: seen := by
          intro hc
          rcases List.mem_cons.mp hc with hc | hc
          · exact heq hc.symm
          · exact hk hc
        exact ih (r.ps_id :: seen) k hk2

theorem mergeLeftOne_dd (allRows : List MapRow) (r : HsbcRow) :
    mergeLeftOne (dropDuplicatesByPsId allRows []) r = [mergedOf allRows r] := by
  unfold mergeLeftOne mergedOf
  rw [dd_filter_eq_find allRows [] r.resourceid (List.not_mem_nil _)]
  cases h : allRows.find? (fun m => m.ps_id == r.resourceid) <;> simp [Option.toList]

theorem mergeLeft_dd_eq_map (allRows : List MapRow) (l : List HsbcRow) :
    mergeLeft (dropDuplicatesByPsId allRows []) l = l.map (mergedOf allRows) := by
  induction l with
  | nil => rfl
  | cons r rs ih => simp [mergeLeft, mergeLeftOne_dd, ih]

theorem mergedOf_hsbc (allRows : List MapRow) (r : HsbcRow) :
    (mergedOf allRows r).hsbc = r := by
  unfold mergedOf
  cases allRows.find? (fun m => m.ps_id == r.resourceid) <;> rfl

theorem processRowsLoop_ok_eq {cg : List CgRow} {l : List MergedRow} {res : List ReconRow}
    (h : processRowsLoop cg l = .ok res) :
    res = l.map (fun m => mkReconRow cg m ((pdToDatetime m.hsbc.timeperiod).getD 0)) ∧
    ∀ m ∈ l, (pdToDatetime m.hsbc.timeperiod).isSome = true := by
  induction l generalizing res with
  | nil =>
    simp only [processRowsLoop, Except.ok.injEq] at h
    subst h
    exact ⟨rfl, by intro m hm; cases hm⟩
  | cons r rs ih =>
    cases hd : pdToDatetime r.hsbc.timeperiod with
    | none => simp [processRowsLoop, processOneRow, hd] at h
    | some t =>
      cases hr : processRowsLoop cg rs with
      | error e => simp [processRowsLoop, processOneRow, hd, hr] at h
      | ok xs =>
        simp only [processRowsLoop, processOneRow, hd, hr, Except.ok.injEq] at h
        obtain ⟨h1, h2⟩ := ih hr
        subst h1
        constructor
        · rw [← h]
          simp [hd]
        · intro m hm
          rcases List.mem_cons.mp hm with hm | hm
          · subst hm; simp [hd]
          · exact h2 m hm

theorem processRowsLoop_error_of_mem {cg : List CgRow} {l : List MergedRow}
    (m : MergedRow) (hm : m ∈ l) (hbad : pdToDatetime m.hsbc.timeperiod = none) :
    processRowsLoop cg l = .error () := by
  induction l with
  | nil => cases hm
  | cons r rs ih =>
    rcases List.mem_cons.mp hm with h | h
    · subst h
      simp [processRowsLoop, processOneRow, hbad]
    · cases hd : pdToDatetime r.hsbc.timeperiod with
      | none => simp [processRowsLoop, processOneRow, hd]
      | some t => simp [processRowsLoop, processOneRow, hd, ih h]

theorem prepareCg_ok {cg l : List CgRow} (h : prepareCg cg = .ok l) :
    l = cg.map prepareCgRow ∧ ∀ e ∈ cg, (pdToDatetime e.entry_date).isSome = true := by
  unfold prepareCg at h
  by_cases hall : cg.all (fun e => (pdToDatetime e.entry_date).isSome) = true
  · rw [if_pos hall] at h
    refine ⟨(Except.ok.injEq _ _ ▸ h).symm, ?_⟩
    intro e he
    exact List.all_eq_true.mp hall e he
  · rw [if_neg hall] at h
    cases h

theorem prepareCg_error_of_mem {cg : List CgRow} (e : CgRow) (he : e ∈ cg)
    (hbad : pdToDatetime e.entry_date = none) : prepareCg cg = .error () := by
  unfold prepareCg
  rw [if_neg]
  intro hall
  have := List.all_eq_true.mp hall e he
  rw [hbad] at this
  cases this

theorem process_timesheet_ok_parts {hsbc : List HsbcRow} {active inactive : List MapRow}
    {cg : List CgRow} {out : List ReconRow} {cgPost : List CgRow}
    (h : process_timesheet hsbc active inactive cg = .ok (out, cgPost)) :
    prepareCg cg = .ok cgPost ∧
    processRowsLoop cgPost ((hsbc.filter reconPred).map (mergedOf (active ++ inactive)))
      = .ok out := by
  unfold process_timesheet at h
  dsimp only [] at h
  rw [mergeLeft_dd_eq_map] at h
  rw [if_neg (by simp)] at h
  cases hp : prepareCg cg with
  | error e => rw [hp] at h; dsimp only [] at h; cases h
  | ok cgp =>
    rw [hp] at h
    dsimp only [] at h
    cases hl : processRowsLoop cgp ((hsbc.filter reconPred).map (mergedOf (active ++ inactive))) with
    | error e => rw [hl] at h; dsimp only [] at h; cases h
    | ok res =>
      rw [hl] at h
      dsimp only [] at h
      simp only [Except.ok.injEq, Prod.mk.injEq] at h
      obtain ⟨h1, h2⟩ := h
      subst h1; subst h2
      exact ⟨rfl, hl⟩

/-- C3: for a primary record whose period start t is a date (midnight),
the comparison window is the inclusive range from t to t plus 6 days
23:59:59; an entry dated exactly at the window end is matched and
contributes to the sum, one dated t plus 7 days 00:00:01 is not; an entry
matches when its derived period overlaps the window or its entry date lies
inside the window, both comparisons inclusive. -/
theorem claim_C3 (t : Int) (ht : t % 86400 = 0) : c3Spec t := by
  have hend : endOfWindow t = t + 604799 := by
    unfold endOfWindow
    omega
  refine ⟨hend, ?_, ?_, ?_⟩
  · intro cg ce e
    simp only [cgFilterRows, List.mem_filter, Bool.and_eq_true, Bool.or_eq_true]
  · intro cg ce e hts hdate hemail hin
    have hdr : entryDateRule e t (endOfWindow t) = true := by
      simp only [entryDateRule, hdate, pdToDatetime, hend, Bool.and_eq_true, decide_eq_true_eq]
      omega
    simp only [cgFilterRows, List.mem_filter, Bool.and_eq_true, Bool.or_eq_true]
    exact ⟨hin, hemail, Or.inr hdr⟩
  · intro cg ce e hts hdate hmem
    simp only [cgFilterRows, List.mem_filter, Bool.and_eq_true, Bool.or_eq_true] at hmem
    obtain ⟨-, -, hrule⟩ := hmem
    rcases hrule with hov | hdr
    · rw [overlapRule, hts] at hov
      cases hov
    · rw [entryDateRule, hdate] at hdr
      simp only [pdToDatetime, hend, Bool.and_eq_true, decide_eq_true_eq] at hdr
      omega

/-- C3 witness: the window facts at the concrete anchor t equal to 0. -/
theorem claim_C3_witness : c3Spec 0 := claim_C3 0 (by decide)

/-- C6: an in-scope primary record whose staff id has no row in the
deduplicated mapping table does not fail: it still produces exactly one
reconciliation row, with empty email and owner, secondary hours 0, and a
discrepancy equal to its primary hours. -/
theorem claim_C6 (r : HsbcRow) (active inactive : List MapRow) (t : Int)
    (_hscope : reconPred r = true)
    (hnomap : (dropDuplicatesByPsId (active ++ inactive) []).filter
        (fun m => m.ps_id == r.resourceid) = [])
    (ht : pdToDatetime r.timeperiod = some t) : c6Spec r active inactive := by
  constructor
  · unfold mergeLeftOne
    rw [hnomap]
  · intro cg
    have hfilter : cgFilterRows cg none t = [] := by
      unfold cgFilterRows
      apply List.filter_eq_nil_iff.mpr
      intro e _
      simp [emailRule]
    unfold processOneRow
    rw [ht]
    simp [mkReconRow, hfilter, cgHoursSum]

/-- C6 witness: a concrete approved 40-hour row with an empty mapping. -/
theorem claim_C6_witness : c6Spec
    { resourceid := 100, resource_name := "Jane", project_productive_flag := "Yes",
      tsstatus := "Approved", timeperiod := .valid 1746403200, units_consumed := 40 }
    [] [] :=
  claim_C6 _ [] [] 1746403200 (by decide) rfl rfl

/-- C7: a secondary entry whose free-text period fails to parse keeps null
derived period fields, can never match through the period-overlap rule,
still matches through the entry-date rule whenever its entry date falls in
the window, and is not removed from iteration. -/
theorem claim_C7 (e : CgRow) (hp : parse_timesheet_period e.timesheet_period = none) :
    c7Spec e := by
  have h1 : (prepareCgRow e).ts_start = none := by simp [prepareCgRow, hp]
  have h2 : (prepareCgRow e).ts_end = none := by simp [prepareCgRow, hp]
  have h3 : ∀ t endD : Int, overlapRule (prepareCgRow e) t endD = false := by
    intro t endD
    rw [overlapRule, h1]
  refine ⟨h1, h2, h3, ?_, ?_⟩
  · intro t ce
    rw [h3]
    simp
  · intro cg l hcg he
    obtain ⟨hl, -⟩ := prepareCg_ok hcg
    subst hl
    exact List.mem_map_of_mem _ he

/-- C7 witness: a concrete entry with an unsplittable period label. -/
theorem claim_C7_witness : c7Spec
    { user_email := "jane@x.com", entry_date := .valid 1746489600,
      timesheet_period := .noSplit, billable_hours := 8, ts_start := none, ts_end := none } :=
  claim_C7 _ rfl

theorem process_flagged_eq_map (hsbc : List HsbcRow) (active inactive : List MapRow) :
    process_flagged_timesheets hsbc active inactive
      = (hsbc.filter flaggedPred).map (fun r =>
          let m := mergedOf (active ++ inactive) r
          { name := m.hsbc.resource_name
            staff_id := m.hsbc.resourceid
            cg_email := m.cg_email
            pl_owner := m.pl_owner
            timeperiod := m.hsbc.timeperiod
            hsbc_hrs := m.hsbc.units_consumed
            status := m.hsbc.tsstatus }) := by
  unfold process_flagged_timesheets
  dsimp only []
  rw [mergeLeft_dd_eq_map, List.map_map]
  rfl

/-- C1: a primary row whose productive flag is not Yes, or whose status
lies outside both policy sets, or whose hours are not positive, appears in
neither output table; conversely the reconciliation output is exactly one
row for each primary row with flag Yes, approved or posted status and
positive hours. -/
theorem claim_C1 (hsbc : List HsbcRow) (active inactive : List MapRow) (cg : List CgRow)
    (out : List ReconRow) (cgPost : List CgRow)
    (h : process_timesheet hsbc active inactive cg = .ok (out, cgPost)) :
    c1Spec hsbc active inactive out cgPost := by
  obtain ⟨hp, hl⟩ := process_timesheet_ok_parts h
  obtain ⟨hres, hsome⟩ := processRowsLoop_ok_eq hl
  refine ⟨?_, ?_, ?_, process_flagged_eq_map hsbc active inactive⟩
  · intro r hr hcond
    simp only [List.mem_cons, List.not_mem_nil, or_false, not_or] at hcond
    constructor <;> intro hmem
    · rw [List.mem_filter] at hmem
      have h2 := hmem.2
      simp only [reconPred, Bool.and_eq_true, Bool.or_eq_true, beq_iff_eq,
        decide_eq_true_eq] at h2
      tauto
    · rw [List.mem_filter] at hmem
      have h2 := hmem.2
      simp only [flaggedPred, Bool.and_eq_true, Bool.or_eq_true, beq_iff_eq,
        decide_eq_true_eq] at h2
      tauto
  · intro r
    rw [List.mem_filter]
    simp only [reconPred, Bool.and_eq_true, Bool.or_eq_true, beq_iff_eq, decide_eq_true_eq]
    tauto
  · rw [hres, List.map_map]
    congr 1
    funext r
    simp [Function.comp, mergedOf_hsbc]

/-- C1 witness: the concrete sample run, with one approved row kept in the
reconciliation output and one submitted row kept in the flagged output. -/
theorem claim_C1_witness :
    c1Spec [wRow, wRowFlag] [wMapActive] [wMapInactive] wOut wCgPost :=
  claim_C1 [wRow, wRowFlag] [wMapActive] [wMapInactive] [wCg1, wCg2] wOut wCgPost (by
    simp +decide [process_timesheet, reconPred, dropDuplicatesByPsId, mergeLeft, mergeLeftOne,
      prepareCg, prepareCgRow, processRowsLoop, processOneRow, mkReconRow, cgFilterRows,
      cgHoursSum, emailRule, overlapRule, entryDateRule, endOfWindow, normEmail, pyStrip,
      pdToDatetime, parse_timesheet_period, wRow, wRowFlag, wMapActive, wMapInactive,
      wCg1, wCg2, wOut, wCgPost]
    norm_num)

/-- C2: every reconciliation row has discrepancy equal to its primary
hours minus the sum of matched secondary billable hours, computed exactly
with no rounding, and the row is emitted regardless of the size of the
discrepancy. -/
theorem claim_C2 (hsbc : List HsbcRow) (active inactive : List MapRow) (cg : List CgRow)
    (out : List ReconRow) (cgPost : List CgRow)
    (h : process_timesheet hsbc active inactive cg = .ok (out, cgPost)) :
    c2Spec hsbc active inactive out cgPost := by
  obtain ⟨hp, hl⟩ := process_timesheet_ok_parts h
  obtain ⟨hres, hsome⟩ := processRowsLoop_ok_eq hl
  subst hres
  refine ⟨?_, ?_, by simp⟩
  · intro x hx
    rw [List.mem_map] at hx
    obtain ⟨m, hm, hxm⟩ := hx
    subst hxm
    simp [mkReconRow]
  · intro x hx
    rw [List.map_map, List.mem_map] at hx
    obtain ⟨r, hr, hxm⟩ := hx
    have hs := hsome (mergedOf (active ++ inactive) r) (List.mem_map_of_mem _ hr)
    rw [mergedOf_hsbc] at hs
    obtain ⟨t, htt⟩ := Option.isSome_iff_exists.mp hs
    refine ⟨r, hr, t, htt, ?_, ?_, ?_⟩ <;>
      simp [← hxm, Function.comp, mkReconRow, mergedOf_hsbc, htt]

/-- C2 witness: the concrete sample run; the single output row has
discrepancy 40 minus 40, emitted even though it is below the threshold. -/
theorem claim_C2_witness :
    c2Spec [wRow, wRowFlag] [wMapActive] [wMapInactive] wOut wCgPost :=
  claim_C2 [wRow, wRowFlag] [wMapActive] [wMapInactive] [wCg1, wCg2] wOut wCgPost (by
    simp +decide [process_timesheet, reconPred, dropDuplicatesByPsId, mergeLeft, mergeLeftOne,
      prepareCg, prepareCgRow, processRowsLoop, processOneRow, mkReconRow, cgFilterRows,
      cgHoursSum, emailRule, overlapRule, entryDateRule, endOfWindow, normEmail, pyStrip,
      pdToDatetime, parse_timesheet_period, wRow, wRowFlag, wMapActive, wMapInactive,
      wCg1, wCg2, wOut, wCgPost]
    norm_num)

/-- C10: because the mapping table is deduplicated before the left join,
the join never produces more rows than its left side, the output has
exactly one row per filtered primary row in input order, the
duplicate-removal warning branch is unreachable, and the flagged path
yields exactly one row per flagged primary row. -/
theorem claim_C10 (hsbc : List HsbcRow) (active inactive : List MapRow) (cg : List CgRow)
    (out : List ReconRow) (cgPost : List CgRow)
    (h : process_timesheet hsbc active inactive cg = .ok (out, cgPost)) :
    c10Spec hsbc active inactive out := by
  obtain ⟨hp, hl⟩ := process_timesheet_ok_parts h
  obtain ⟨hres, hsome⟩ := processRowsLoop_ok_eq hl
  have hmap : (mergeLeft (dropDuplicatesByPsId (active ++ inactive) [])
      (hsbc.filter reconPred)).map (fun m => m.hsbc) = hsbc.filter reconPred := by
    rw [mergeLeft_dd_eq_map, List.map_map]
    have : ((fun m : MergedRow => m.hsbc) ∘ mergedOf (active ++ inactive)) = id := by
      funext r
      simp [Function.comp, mergedOf_hsbc]
    rw [this, List.map_id]
  have hlen : (mergeLeft (dropDuplicatesByPsId (active ++ inactive) [])
      (hsbc.filter reconPred)).length = (hsbc.filter reconPred).length := by
    rw [mergeLeft_dd_eq_map, List.length_map]
  refine ⟨hlen, hmap, ?_, ?_, ?_⟩
  · rw [if_neg]
    simp [hlen]
  · rw [hres]
    simp
  · rw [process_flagged_eq_map, List.length_map]

/-- C10 witness: the concrete sample run, one merged row per filtered
primary row and one flagged row for the submitted primary row. -/
theorem claim_C10_witness :
    c10Spec [wRow, wRowFlag] [wMapActive] [wMapInactive] wOut :=
  claim_C10 [wRow, wRowFlag] [wMapActive] [wMapInactive] [wCg1, wCg2] wOut wCgPost (by
    simp +decide [process_timesheet, reconPred, dropDuplicatesByPsId, mergeLeft, mergeLeftOne,
      prepareCg, prepareCgRow, processRowsLoop, processOneRow, mkReconRow, cgFilterRows,
      cgHoursSum, emailRule, overlapRule, entryDateRule, endOfWindow, normEmail, pyStrip,
      pdToDatetime, parse_timesheet_period, wRow, wRowFlag, wMapActive, wMapInactive,
      wCg1, wCg2, wOut, wCgPost]
    norm_num)

/-- C4: when a staff id occurs in both mapping segments, exactly one
mapping row survives deduplication, namely its first occurrence in the
concatenation with the active segment first, and that rows email and
owner are the ones used for resolution in both outputs. -/
theorem claim_C4 (active inactive : List MapRow) (s : Nat) (a : MapRow)
    (ha : active.find? (fun m => m.ps_id == s) = some a)
    (_hb : ∃ b ∈ inactive, b.ps_id = s) :
    c4Spec active inactive s a := by
  have hfind : (active ++ inactive).find? (fun m => m.ps_id == s) = some a := by
    rw [List.find?_append, ha]
    rfl
  have hone : ∀ r : HsbcRow, r.resourceid = s →
      mergedOf (active ++ inactive) r = ⟨r, a.cg_email, a.pl_owner⟩ := by
    intro r hr
    unfold mergedOf
    rw [hr, hfind]
  refine ⟨?_, hone, ?_, ?_⟩
  · rw [dd_filter_eq_find _ [] s (List.not_mem_nil _), hfind]
    rfl
  · intro hsbc y hy hid
    rw [process_flagged_eq_map, List.mem_map] at hy
    obtain ⟨r, hr, hry⟩ := hy
    subst hry
    dsimp only [] at hid ⊢
    rw [mergedOf_hsbc] at hid
    rw [hone r hid]
    exact ⟨rfl, rfl⟩
  · intro hsbc cg out cgPost hrun x hx hid
    obtain ⟨hp, hl⟩ := process_timesheet_ok_parts hrun
    obtain ⟨hres, hsome⟩ := processRowsLoop_ok_eq hl
    subst hres
    rw [List.map_map, List.mem_map] at hx
    obtain ⟨r, hr, hxr⟩ := hx
    subst hxr
    have hrs : r.resourceid = s := by
      simpa [Function.comp, mkReconRow, mergedOf_hsbc] using hid
    simp [Function.comp, mkReconRow, hone r hrs]

/-- C4 witness: staff id 100 occurs in both sample segments; the active
rows email and owner win. -/
theorem claim_C4_witness : c4Spec [wMapActive] [wMapInactive] 100 wMapActive :=
  claim_C4 [wMapActive] [wMapInactive] 100 wMapActive (by decide)
    ⟨wMapInactive, by simp, rfl⟩

theorem cgHoursSum_cons (x : CgRow) (l : List CgRow) :
    cgHoursSum (x :: l) = x.billable_hours + cgHoursSum l := by
  simp [cgHoursSum]

theorem c5_sum_aux (m u : String) (hmu : normEmail m = normEmail u) (t : Int) :
    ∀ es : List CgRow, (∀ e ∈ es, e.user_email = u) →
      cgHoursSum (cgFilterRows (es.map prepareCgRow) (some (normEmail m)) t)
        = cgHoursSum (cgFilterRows ((es.map (setUserEmail (normEmail u))).map prepareCgRow)
            (some (normEmail (normEmail m))) t) := by
  intro es
  induction es with
  | nil => intro _; rfl
  | cons e rest ih =>
    intro hes
    have heu : e.user_email = u := hes e (List.mem_cons_self e rest)
    have hrest : ∀ x ∈ rest, x.user_email = u :=
      fun x hx => hes x (List.mem_cons_of_mem _ hx)
    have hihm := ih hrest
    have hemL : emailRule (some (normEmail m)) (prepareCgRow e) = true := by
      simp [emailRule, prepareCgRow, heu, hmu]
    have hemR : emailRule (some (normEmail (normEmail m)))
        (prepareCgRow (setUserEmail (normEmail u) e)) = true := by
      simp [emailRule, prepareCgRow, setUserEmail, congrArg normEmail hmu]
    have hov : overlapRule (prepareCgRow (setUserEmail (normEmail u) e)) t (endOfWindow t)
        = overlapRule (prepareCgRow e) t (endOfWindow t) := rfl
    have hed : entryDateRule (prepareCgRow (setUserEmail (normEmail u) e)) t (endOfWindow t)
        = entryDateRule (prepareCgRow e) t (endOfWindow t) := rfl
    cases hcond : (overlapRule (prepareCgRow e) t (endOfWindow t)
        || entryDateRule (prepareCgRow e) t (endOfWindow t)) with
    | false =>
      simp only [List.map_cons, cgFilterRows, List.filter_cons, hemL, hemR, hov, hed, hcond,
        Bool.true_and, Bool.false_eq_true, if_false]
      exact hihm
    | true =>
      simp only [List.map_cons, cgFilterRows, List.filter_cons, hemL, hemR, hov, hed, hcond,
        Bool.true_and, if_true]
      rw [cgHoursSum_cons, cgHoursSum_cons]
      have hb : (prepareCgRow (setUserEmail (normEmail u) e)).billable_hours
          = (prepareCgRow e).billable_hours := rfl
      rw [hb]
      exact congrArg (fun q => (prepareCgRow e).billable_hours + q) hihm

/-- C5: secondary-entry matching is invariant under case changes and
leading or trailing whitespace on either side of the email comparison:
when a mapping email and a user email agree after lowercasing and
trimming, the match outcomes and the summed secondary hours are the same
as if both had already been lowercase and trimmed. -/
theorem claim_C5 (m u : String) (hmu : normEmail m = normEmail u)
    (es : List CgRow) (hes : ∀ e ∈ es, e.user_email = u) (t : Int) :
    c5Spec m u es t := by
  constructor
  · intro e he
    have heu : e.user_email = u := hes e he
    constructor
    · simp [emailRule, prepareCgRow, heu, hmu]
    · simp [emailRule, prepareCgRow, setUserEmail, congrArg normEmail hmu]
  · exact c5_sum_aux m u hmu t es hes

/-- C5 witness: the mapping email Jane at X dot com with a trailing space
matches the already-normalised user email jane at x dot com. -/
theorem claim_C5_witness : c5Spec "Jane@X.com " "jane@x.com" [wCg2] 0 :=
  claim_C5 "Jane@X.com " "jane@x.com" (by decide) [wCg2]
    (by intro e he; simp at he; rw [he]; rfl) 0

/-- C8 counterexample: a run whose secondary table holds one entry with an
unparseable Entry Date aborts with an error instead of leaving that rows
derived fields null and processing the other rows; the claim that the run
does not abort is false on this input. -/
theorem claim_C8_cex :
    process_timesheet [wRow] [wMapActive] [] [wCg1, badDateCg] = .error () := by
  rfl

/-- C8 amended: an unparseable date in the secondary tables Entry Date
column, or in the TIMEPERIOD of an in-scope primary row, aborts the run
with an error and produces no output; only a SecondaryEntry whose period
label fails to parse is handled gracefully, with null derived fields,
exclusion from period-overlap matches, and no removal from iteration. -/
theorem claim_C8_amended (hsbc : List HsbcRow) (active inactive : List MapRow)
    (cg : List CgRow) (e : CgRow) (he : e ∈ cg)
    (hbad : pdToDatetime e.entry_date = none) :
    c8Spec hsbc active inactive cg := by
  refine ⟨?_, ?_, ?_, ?_⟩
  · unfold process_timesheet
    dsimp only []
    rw [prepareCg_error_of_mem e he hbad]
  · intro cg2 r hall hr hnone
    unfold process_timesheet
    dsimp only []
    rw [mergeLeft_dd_eq_map, if_neg (by simp)]
    have hok : prepareCg cg2 = .ok (cg2.map prepareCgRow) := by
      unfold prepareCg
      rw [if_pos (List.all_eq_true.mpr hall)]
    rw [hok]
    dsimp only []
    have hloop : processRowsLoop (cg2.map prepareCgRow)
        ((hsbc.filter reconPred).map (mergedOf (active ++ inactive))) = .error () := by
      apply processRowsLoop_error_of_mem (mergedOf (active ++ inactive) r)
      · exact List.mem_map_of_mem _ hr
      · rw [mergedOf_hsbc]
        exact hnone
    rw [hloop]
  · intro x hx
    refine ⟨?_, ?_⟩ <;> simp [prepareCgRow, hx]
  · intro cg3 l hok
    obtain ⟨hl, -⟩ := prepareCg_ok hok
    subst hl
    exact ⟨rfl, fun x hx => List.mem_map_of_mem _ hx⟩

/-- C8 amended witness: the aborting sample run with one bad Entry Date. -/
theorem claim_C8_amended_witness : c8Spec [wRow] [wMapActive] [] [wCg1, badDateCg] :=
  claim_C8_amended [wRow] [wMapActive] [] [wCg1, badDateCg] badDateCg
    (by simp) rfl

/-- C9 counterexample: running process_timesheet on a secondary table with
one entry whose email carries upper-case letters and a trailing space
returns a secondary-table post-state different from the input table: the
User Email value has been rewritten in place.  The claim that every input
table is unchanged after the call is false on this input. -/
theorem claim_C9_cex :
    process_timesheet [] [] [] [wCg1] = .ok ([], [prepareCgRow wCg1]) ∧
    [prepareCgRow wCg1] ≠ [wCg1] := by
  constructor
  · rfl
  · decide

/-- C9 amended: the engine never mutates the primary or mapping tables,
but process_timesheet mutates the secondary table in place, rewriting each
User Email to its normalised form and overwriting the derived period
columns, so the secondary tables contents after the call are in general
not identical to its contents before. -/
theorem claim_C9_amended (hsbc : List HsbcRow) (active inactive : List MapRow)
    (cg : List CgRow) (out : List ReconRow) (cgPost : List CgRow)
    (h : process_timesheet hsbc active inactive cg = .ok (out, cgPost)) :
    c9Spec hsbc active inactive cg cgPost := by
  obtain ⟨hp, -⟩ := process_timesheet_ok_parts h
  obtain ⟨hcg, -⟩ := prepareCg_ok hp
  exact ⟨rfl, rfl, hcg, fun e _ => ⟨rfl, rfl, rfl, rfl, rfl, rfl⟩⟩

/-- C9 amended witness: the concrete sample run; its secondary post-state
is the prepared table. -/
theorem claim_C9_amended_witness :
    c9Spec [wRow, wRowFlag] [wMapActive] [wMapInactive] [wCg1, wCg2] wCgPost :=
  claim_C9_amended [wRow, wRowFlag] [wMapActive] [wMapInactive] [wCg1, wCg2] wOut wCgPost (by
    simp +decide [process_timesheet, reconPred, dropDuplicatesByPsId, mergeLeft, mergeLeftOne,
      prepareCg, prepareCgRow, processRowsLoop, processOneRow, mkReconRow, cgFilterRows,
      cgHoursSum, emailRule, overlapRule, entryDateRule, endOfWindow, normEmail, pyStrip,
      pdToDatetime, parse_timesheet_period, wRow, wRowFlag, wMapActive, wMapInactive,
      wCg1, wCg2, wOut, wCgPost]
    norm_num)
